import Mathlib

/-!
Shallow embedding of the tournament scheduling core of the `gms` Django
application (`gms/models.py`, `gms/views.py`).

Modelling conventions:
* Entities (clubs / participants) are identified by their primary keys,
  modelled as `Nat`.  The scheduling core treats them opaquely.
* Dates are modelled as day indices (`Nat`), with day 0 falling on a
  Monday, so that `d % 7` coincides with Python's `date.weekday()`
  (Monday = 0, ..., Sunday = 6).  `timedelta(days = 1)` is `+ 1`.
* The one competition's `Match` table is modelled as a `List` kept in
  primary-key (creation) order, so `.order_by('id')` is the list order.
* Django querysets are lists; `itertools.combinations(l, 2)` is `combos l`.
* Python `while` loops that are not structurally recursive are modelled
  with an explicit fuel argument large enough that, in every reachable
  call, the fuel is not exhausted (proved where a claim needs it).
-/

namespace Gms

/-- `CompetitionFormat.FORMAT_TYPE_CHOICES` in `gms/models.py`. -/
inductive FormatType where
  | SINGLE_ELIMINATION
  | DOUBLE_ELIMINATION
  | LEAGUE
  | ROUND_ROBIN
  | SWISS_SYSTEM
  | KNOCKOUT
  | OTHER
deriving DecidableEq, Repr

/-- `CompetitionFormat.FORMAT_STATUS_CHOICES` in `gms/models.py`. -/
inductive FormatStatus where
  | ACTIVE
  | COMING_SOON
deriving DecidableEq, Repr

/-- `Competition.participant_type` choices (`CLUBS` / `PARTICIPANTS`). -/
inductive ParticipantType where
  | CLUBS
  | PARTICIPANTS
deriving DecidableEq, Repr

/-- `Competition.frequency_day` choices. -/
inductive Frequency where
  | ALL_DAYS
  | WEEKDAY
  | WEEKEND
  | CUSTOM
deriving DecidableEq, Repr

/-- `Match.STATUS_CHOICES` (the ones the core touches). -/
inductive MatchStatus where
  | DRAFT
  | SCHEDULED
  | IN_PROGRESS
  | COMPLETED
  | POSTPONED
deriving DecidableEq, Repr

/-- A `Match` row as created/updated by the scheduling core.  `home`/`away`
are the (nullable) entity slots — `home_team`/`away_team` in CLUBS mode,
`home_participant`/`away_participant` in PARTICIPANTS mode; the core sets
exactly one of the two field pairs and never mixes them, so one slot pair
models both.  `sched` is the `scheduled_time` date component. -/
structure MatchRow where
  round : Option Nat
  home : Option Nat
  away : Option Nat
  group : Option Nat
  status : MatchStatus
  sched : Nat
deriving DecidableEq, Repr

/-- Competition configuration — the fields of `Competition` that the
scheduling core reads. -/
structure Competition where
  participantType : ParticipantType
  formatType : FormatType
  formatStatus : FormatStatus
  numberOfClubs : Option Nat
  numberOfParticipants : Option Nat
  isLeagueWithGroups : Bool
  numberOfGroups : Nat
  clubsPerGroup : Nat
  enrolledClubs : List Nat
  enrolledParticipants : List Nat
  customDays : List Nat
  startDate : Option Nat
  endDate : Option Nat
  frequencyDay : Option Frequency
deriving DecidableEq, Repr

/-! ## Bracket sizer: `Competition.get_next_power_of_2` -/

/-- The `while power < n: power *= 2` loop of `get_next_power_of_2`,
with fuel; the loop multiplies `power` by two until `power >= n`. -/
def npotLoop (n : Nat) : Nat → Nat → Nat
  | 0, power => power
  | fuel + 1, power => if power < n then npotLoop n fuel (power * 2) else power

/-- `Competition.get_next_power_of_2` (models.py:986-993): `1` for
`n <= 1`, else doubles `power` from `1` until it reaches `n`.  Fuel `n`
suffices because `2 ^ n > n`. -/
def get_next_power_of_2 (n : Nat) : Nat :=
  if n ≤ 1 then 1 else npotLoop n n 1

theorem npotLoop_spec (n : Nat) : ∀ (fuel : Nat) (i : Nat),
    n ≤ 2 ^ i * 2 ^ fuel →
    n ≤ npotLoop n fuel (2 ^ i) ∧
      (∃ k, npotLoop n fuel (2 ^ i) = 2 ^ i * 2 ^ k) ∧
      (∀ j, n ≤ 2 ^ i * 2 ^ j → npotLoop n fuel (2 ^ i) ≤ 2 ^ i * 2 ^ j) := by
  intro fuel
  induction fuel with
  | zero =>
    intro i h
    simp only [npotLoop]
    refine ⟨by simpa using h, ⟨0, by ring⟩, ?_⟩
    intro j _
    calc 2 ^ i = 2 ^ i * 1 := by ring
    _ ≤ 2 ^ i * 2 ^ j := Nat.mul_le_mul_left _ (Nat.one_le_two_pow)
  | succ f ih =>
    intro i h
    simp only [npotLoop]
    by_cases hlt : 2 ^ i < n
    · simp only [if_pos hlt]
      have h2 : (2 : Nat) ^ i * 2 = 2 ^ (i + 1) := by ring
      have h' : n ≤ 2 ^ (i + 1) * 2 ^ f := by
        calc n ≤ 2 ^ i * 2 ^ (f + 1) := h
        _ = 2 ^ (i + 1) * 2 ^ f := by ring
      obtain ⟨ih1, ⟨k, ihk⟩, ih3⟩ := ih (i + 1) h'
      rw [h2]
      refine ⟨ih1, ⟨k + 1, by rw [ihk]; ring⟩, ?_⟩
      intro j hj
      match j with
      | 0 => exact absurd (by simpa using hj) (Nat.not_le.mpr hlt)
      | j' + 1 =>
        have : 2 ^ i * 2 ^ (j' + 1) = 2 ^ (i + 1) * 2 ^ j' := by ring
        rw [this]
        exact ih3 j' (this ▸ hj)
    · simp only [if_neg hlt]
      refine ⟨Nat.le_of_not_lt hlt, ⟨0, by ring⟩, ?_⟩
      intro j _
      calc 2 ^ i = 2 ^ i * 1 := by ring
      _ ≤ 2 ^ i * 2 ^ j := Nat.mul_le_mul_left _ (Nat.one_le_two_pow)

/-- C7 — `get_next_power_of_2 n` is a power of two, is `≥ n`, and is the
least power of two `≥ n`; consequently the bye count
`get_next_power_of_2 n - n` is non-negative. -/
theorem C7_get_next_power_of_2_least (n : Nat) (h : 1 ≤ n) :
    (∃ k, get_next_power_of_2 n = 2 ^ k) ∧ n ≤ get_next_power_of_2 n ∧
      (∀ j, n ≤ 2 ^ j → get_next_power_of_2 n ≤ 2 ^ j) ∧
      (0 : Int) ≤ (get_next_power_of_2 n : Int) - (n : Int) := by
  by_cases h1 : n ≤ 1
  · have hn : n = 1 := le_antisymm h1 h
    subst hn
    exact ⟨⟨0, rfl⟩, by decide, fun j _ => Nat.one_le_two_pow, by decide⟩
  · have hfuel : n ≤ 2 ^ 0 * 2 ^ n := by simpa using (Nat.lt_two_pow n).le
    obtain ⟨hge, ⟨k, hk⟩, hmin⟩ := npotLoop_spec n n 0 hfuel
    simp only [pow_zero, one_mul] at hge hk hmin
    simp only [get_next_power_of_2, if_neg h1]
    refine ⟨⟨k, hk⟩, hge, ?_, ?_⟩
    · intro j hj
      simpa using hmin j (by simpa using hj)
    · have : (n : Int) ≤ (npotLoop n n 1 : Int) := by exact_mod_cast hge
      omega

/-- Witness for C7 at `n = 5`: the computed bracket size is `8`. -/
theorem C7_get_next_power_of_2_least_witness :
    get_next_power_of_2 5 = 8 ∧
      ((∃ k, get_next_power_of_2 5 = 2 ^ k) ∧ 5 ≤ get_next_power_of_2 5 ∧
        (∀ j, 5 ≤ 2 ^ j → get_next_power_of_2 5 ≤ 2 ^ j) ∧
        (0 : Int) ≤ (get_next_power_of_2 5 : Int) - (5 : Int)) :=
  ⟨rfl, C7_get_next_power_of_2_least 5 (by decide)⟩

/-! ## Date cursor: `Competition.get_next_available_date` -/

/-- The `while next_date.weekday() >= 5: next_date += 1` loop of the
WEEKDAY branch, with fuel (the loop body runs at most twice). -/
def weekdaySkip : Nat → Nat → Nat
  | 0, d => d
  | fuel + 1, d => if 5 ≤ d % 7 then weekdaySkip fuel (d + 1) else d

/-- The `while next_date.weekday() < 5: next_date += 1` loop of the
WEEKEND branch, with fuel (the loop body runs at most five times). -/
def weekendSkip : Nat → Nat → Nat
  | 0, d => d
  | fuel + 1, d => if d % 7 < 5 then weekendSkip fuel (d + 1) else d

/-- `Competition.get_next_available_date` (models.py:1141-1182).  The
generators always pass `start_date`/`end_date`, so the `None` defaults of
the Python signature are not modelled.  In the CUSTOM branch the source
returns `end_date + 1 day` both when the filtered custom-day list is
empty and when it holds no element greater than `current`, so the two
branches are merged through `find?`. -/
def get_next_available_date (customDays : List Nat) (current : Nat) (freq : Frequency)
    (startD endD : Nat) : Nat :=
  match freq with
  | Frequency.ALL_DAYS =>
    let next := current + 1
    if endD < next then endD + 1 else next
  | Frequency.WEEKDAY =>
    let next := weekdaySkip 7 (current + 1)
    if endD < next then endD + 1 else next
  | Frequency.WEEKEND =>
    let next := weekendSkip 7 (current + 1)
    if endD < next then endD + 1 else next
  | Frequency.CUSTOM =>
    let cds := List.insertionSort (· ≤ ·)
      (customDays.filter fun x => decide (startD ≤ x ∧ x ≤ endD))
    match cds.find? (fun x => decide (current < x)) with
    | some x => x
    | none => endD + 1

theorem weekdaySkip_seven (d : Nat) :
    d ≤ weekdaySkip 7 d ∧ weekdaySkip 7 d % 7 < 5 := by
  simp only [weekdaySkip]
  split_ifs <;> omega

theorem weekendSkip_seven (d : Nat) :
    d ≤ weekendSkip 7 d ∧ 5 ≤ weekendSkip 7 d % 7 := by
  simp only [weekendSkip]
  split_ifs <;> omega

/-- In a `≤`-sorted list, `find?` returns a minimal element among those
satisfying the predicate. -/
theorem find?_sorted_min : ∀ {l : List Nat}, l.Sorted (· ≤ ·) →
    ∀ {p : Nat → Bool} {x : Nat}, l.find? p = some x → ∀ y ∈ l, p y → x ≤ y := by
  intro l
  induction l with
  | nil => intro _ p x hf; simp [List.find?] at hf
  | cons a t ih =>
    intro hs p x hf y hy hpy
    rw [List.sorted_cons] at hs
    rw [List.find?_cons] at hf
    cases hpa : p a with
    | true =>
      rw [hpa] at hf
      obtain rfl : a = x := by simpa using hf
      rcases List.mem_cons.mp hy with rfl | hyt
      · exact le_refl _
      · exact hs.1 y hyt
    | false =>
      rw [hpa] at hf
      rcases List.mem_cons.mp hy with rfl | hyt
      · simp [hpa] at hpy
      · exact ih hs.2 hf y hyt hpy

/-- The weekday class a frequency policy allows (Monday = 0 epoch). -/
def allowedDay (f : Frequency) (x : Nat) : Prop :=
  match f with
  | Frequency.ALL_DAYS => True
  | Frequency.WEEKDAY => x % 7 < 5
  | Frequency.WEEKEND => 5 ≤ x % 7
  | Frequency.CUSTOM => True

/-- C5 (amended) — for ALL_DAYS/WEEKDAY/WEEKEND and a cursor position
`d ≤ range_end`, the next available date is strictly after `d` and is
either an allowed-class date within the range or the exhaustion sentinel
`range_end + 1`; for CUSTOM it is the smallest custom date *within
`[range_start, range_end]`* strictly greater than `d`, or the sentinel
when no such date exists. -/
theorem C5_next_available_date (cds : List Nat) (d s e : Nat) (f : Frequency)
    (hse : s ≤ e) (hd : d ≤ e) :
    (f ≠ Frequency.CUSTOM →
      d < get_next_available_date cds d f s e ∧
        ((get_next_available_date cds d f s e ≤ e ∧
            allowedDay f (get_next_available_date cds d f s e)) ∨
          get_next_available_date cds d f s e = e + 1)) ∧
    (f = Frequency.CUSTOM →
      ((∃ x ∈ cds, s ≤ x ∧ x ≤ e ∧ d < x) →
        get_next_available_date cds d f s e ∈ cds ∧
          s ≤ get_next_available_date cds d f s e ∧
          get_next_available_date cds d f s e ≤ e ∧
          d < get_next_available_date cds d f s e ∧
          ∀ y ∈ cds, s ≤ y → y ≤ e → d < y → get_next_available_date cds d f s e ≤ y) ∧
      ((∀ x ∈ cds, s ≤ x → x ≤ e → ¬ d < x) →
        get_next_available_date cds d f s e = e + 1)) := by
  cases f with
  | ALL_DAYS =>
    refine ⟨fun _ => ?_, fun hc => absurd hc (by decide)⟩
    simp only [get_next_available_date]
    by_cases h : e < d + 1
    · rw [if_pos h]
      exact ⟨by omega, Or.inr rfl⟩
    · rw [if_neg h]
      exact ⟨by omega, Or.inl ⟨by omega, trivial⟩⟩
  | WEEKDAY =>
    refine ⟨fun _ => ?_, fun hc => absurd hc (by decide)⟩
    obtain ⟨hge, hmod⟩ := weekdaySkip_seven (d + 1)
    simp only [get_next_available_date]
    by_cases h : e < weekdaySkip 7 (d + 1)
    · rw [if_pos h]
      exact ⟨by omega, Or.inr rfl⟩
    · rw [if_neg h]
      exact ⟨by omega, Or.inl ⟨by omega, hmod⟩⟩
  | WEEKEND =>
    refine ⟨fun _ => ?_, fun hc => absurd hc (by decide)⟩
    obtain ⟨hge, hmod⟩ := weekendSkip_seven (d + 1)
    simp only [get_next_available_date]
    by_cases h : e < weekendSkip 7 (d + 1)
    · rw [if_pos h]
      exact ⟨by omega, Or.inr rfl⟩
    · rw [if_neg h]
      exact ⟨by omega, Or.inl ⟨by omega, hmod⟩⟩
  | CUSTOM =>
    refine ⟨fun hne => absurd rfl hne, fun _ => ?_⟩
    have hperm := List.perm_insertionSort (· ≤ ·)
      (cds.filter fun x => decide (s ≤ x ∧ x ≤ e))
    have hsorted : (List.insertionSort (· ≤ ·)
        (cds.filter fun x => decide (s ≤ x ∧ x ≤ e))).Sorted (· ≤ ·) :=
      List.sorted_insertionSort (· ≤ ·) _
    constructor
    · rintro ⟨x, hxcds, hxs, hxe, hdx⟩
      have hxL : x ∈ List.insertionSort (· ≤ ·)
          (cds.filter fun z => decide (s ≤ z ∧ z ≤ e)) := by
        rw [hperm.mem_iff, List.mem_filter]
        exact ⟨hxcds, by simp [hxs, hxe]⟩
      have hsome : ((List.insertionSort (· ≤ ·)
          (cds.filter fun z => decide (s ≤ z ∧ z ≤ e))).find?
            fun z => decide (d < z)).isSome := by
        rw [List.find?_isSome]
        exact ⟨x, hxL, by simpa using hdx⟩
      obtain ⟨w, hw⟩ := Option.isSome_iff_exists.mp hsome
      have hres : get_next_available_date cds d Frequency.CUSTOM s e = w := by
        simp only [get_next_available_date]
        rw [hw]
      have hwL := List.mem_of_find?_eq_some hw
      have hwf := (hperm.mem_iff).mp hwL
      have hw1 := List.mem_filter.mp hwf
      have hwcds : w ∈ cds := hw1.1
      have hwse : s ≤ w ∧ w ≤ e := by simpa using hw1.2
      have hdw : d < w := by simpa using List.find?_some hw
      rw [hres]
      refine ⟨hwcds, hwse.1, hwse.2, hdw, ?_⟩
      intro y hy hys hye hdy
      have hyL : y ∈ List.insertionSort (· ≤ ·)
          (cds.filter fun z => decide (s ≤ z ∧ z ≤ e)) := by
        rw [hperm.mem_iff, List.mem_filter]
        exact ⟨hy, by simp [hys, hye]⟩
      exact find?_sorted_min hsorted hw y hyL (by simpa using hdy)
    · intro hnone
      have hn : ((List.insertionSort (· ≤ ·)
          (cds.filter fun z => decide (s ≤ z ∧ z ≤ e))).find?
            fun z => decide (d < z)) = none := by
        rw [List.find?_eq_none]
        intro z hzL
        have hzf := (hperm.mem_iff).mp hzL
        have hz := List.mem_filter.mp hzf
        have hzse : s ≤ z ∧ z ≤ e := by simpa using hz.2
        simpa using hnone z hz.1 hzse.1 hzse.2
      simp only [get_next_available_date]
      rw [hn]

/-- Witness for C5 at a concrete CUSTOM input: custom days `[12, 15]`,
cursor at `11`, window `[10, 20]` — the cursor lands on `12`. -/
theorem C5_next_available_date_witness :
    get_next_available_date [12, 15] 11 Frequency.CUSTOM 10 20 = 12 ∧
      get_next_available_date [12, 15] 11 Frequency.CUSTOM 10 20 ∈ [12, 15] ∧
      11 < get_next_available_date [12, 15] 11 Frequency.CUSTOM 10 20 := by
  have h := (C5_next_available_date [12, 15] 11 10 20 Frequency.CUSTOM
    (by decide) (by decide)).2 rfl
  have h1 := h.1 ⟨12, by decide, by decide, by decide, by decide⟩
  exact ⟨by decide, h1.1, h1.2.2.2.1⟩

/-- Counterexample to C5 as stated: (a) under CUSTOM the code only
considers custom dates inside `[range_start, range_end]` — with custom
dates `[5]`, window `[10, 20]` and cursor `2` it returns the sentinel
`21` although `5` is the smallest custom date greater than `2`; (b) the
claimed strict monotonicity fails for a cursor beyond `range_end`: under
ALL_DAYS with cursor `21` and window `[10, 20]` the result is `21`,
not a date strictly greater than the cursor. -/
theorem C5_counterexample :
    (get_next_available_date [5] 2 Frequency.CUSTOM 10 20 = 21 ∧
      (5 : Nat) ∈ ([5] : List Nat) ∧ (2 : Nat) < 5 ∧ (21 : Nat) ≠ 5) ∧
    (get_next_available_date [] 21 Frequency.ALL_DAYS 10 20 = 21 ∧
      ¬ (21 : Nat) < 21) := by
  exact ⟨⟨by decide, by decide, by decide, by decide⟩, ⟨by decide, by decide⟩⟩

/-! ## Single elimination:
`Competition._generate_single_elimination_schedule_with_dates` and
`Competition._generate_draft_single_elimination_schedule` -/

/-- One round of the date-aware single-elimination generator
(models.py:1264-1302): processes the current round's team slots in
consecutive pairs; a real-vs-real pair creates a match (and a `None`
winner placeholder in the next round), a real/`None` pair advances the
real entity, a `None`/`None` pair advances a placeholder.  Returns
(created matches, next round's team slots); the `break` on a date past
`end_date` discards the rest of the round. -/
def seRound (endD date roundNum : Nat) : List (Option Nat) → List MatchRow × List (Option Nat)
  | [] => ([], [])
  | [t1] =>
    match t1 with
    | some a => ([], [some a])
    | none => ([], [none])
  | t1 :: t2 :: rest =>
    match t1, t2 with
    | some a, some b =>
      if date ≤ endD then
        let r := seRound endD date roundNum rest
        ({ round := some roundNum, home := some a, away := some b, group := none,
           status := MatchStatus.SCHEDULED, sched := date } :: r.1, none :: r.2)
      else ([], [])
    | some a, none =>
      let r := seRound endD date roundNum rest
      (r.1, some a :: r.2)
    | none, some b =>
      let r := seRound endD date roundNum rest
      (r.1, some b :: r.2)
    | none, none =>
      let r := seRound endD date roundNum rest
      (r.1, none :: r.2)

/-- The `while len(current_round_teams) > 1 and current_date <= end_date`
loop of `_generate_single_elimination_schedule_with_dates`
(models.py:1261-1311), with fuel; after each round the date cursor
advances once. -/
def seLoopFuel (cds : List Nat) (f : Frequency) (startD endD : Nat) :
    Nat → List (Option Nat) → Nat → Nat → List MatchRow
  | 0, _, _, _ => []
  | fuel + 1, teams, roundNum, date =>
    if 1 < teams.length ∧ date ≤ endD then
      let r := seRound endD date roundNum teams
      r.1 ++ seLoopFuel cds f startD endD fuel r.2 (roundNum + 1)
        (get_next_available_date cds date f startD endD)
    else []

/-- `Competition._generate_single_elimination_schedule_with_dates`
(models.py:1225-1313): pads the roster with `None` byes up to the next
power of two and runs the round loop from round 1 at `start_date`.  The
fuel `bracket.length` is never exhausted because the slot list at least
halves every round. -/
def generate_single_elimination_schedule_with_dates (cds : List Nat) (clubs : List Nat)
    (startD endD : Nat) (f : Frequency) : List MatchRow :=
  if clubs.length < 2 then []
  else
    let npot := get_next_power_of_2 clubs.length
    let byes := npot - clubs.length
    let bracket := clubs.map some ++ List.replicate byes none
    seLoopFuel cds f startD endD bracket.length bracket 1 startD

/-- One round of the draft single-elimination generator
(models.py:612-652): creates a DRAFT match for *every* consecutive pair
of slots — including pairs with a `None` bye slot — and fills the next
round with `None` placeholders.  `placeholder` is the 9:00 AM
placeholder date (the competition's start date). -/
def draftRound (roundNum placeholder : Nat) : List (Option Nat) → List MatchRow × List (Option Nat)
  | [] => ([], [])
  | [t1] =>
    ([{ round := some roundNum, home := t1, away := none, group := none,
        status := MatchStatus.DRAFT, sched := placeholder }], [none])
  | t1 :: t2 :: rest =>
    let r := draftRound roundNum placeholder rest
    ({ round := some roundNum, home := t1, away := t2, group := none,
       status := MatchStatus.DRAFT, sched := placeholder } :: r.1, none :: r.2)

/-- The `while len(current_round_teams) > 1` loop of
`_generate_draft_single_elimination_schedule` (models.py:612-652). -/
def draftLoopFuel (placeholder : Nat) : Nat → List (Option Nat) → Nat → List MatchRow
  | 0, _, _ => []
  | fuel + 1, teams, roundNum =>
    if 1 < teams.length then
      let r := draftRound roundNum placeholder teams
      r.1 ++ draftLoopFuel placeholder fuel r.2 (roundNum + 1)
    else []

/-- `Competition._generate_draft_single_elimination_schedule`
(models.py:579-654): same bye padding, but every pair becomes a DRAFT
match with a placeholder time. -/
def generate_draft_single_elimination_schedule (clubs : List Nat) (startD : Nat) :
    List MatchRow :=
  if clubs.length < 2 then []
  else
    let npot := get_next_power_of_2 clubs.length
    let byes := npot - clubs.length
    let bracket := clubs.map some ++ List.replicate byes none
    draftLoopFuel startD bracket.length bracket 1

/-- C1 — evaluation at the failing input: for the power-of-two roster
`[1,2,3,4]` with an ample date window (days 0..100, ALL_DAYS), the
date-aware single-elimination generator creates only the 2 real-vs-real
round-1 matches and never creates the TBD semifinal-winners final, so
the output is not `n - 1 = 3` matches over `log2(n) = 2` rounds. -/
theorem C1_single_elim_four_clubs_not_bracket :
    generate_single_elimination_schedule_with_dates [] [1, 2, 3, 4] 0 100
        Frequency.ALL_DAYS =
      [{ round := some 1, home := some 1, away := some 2, group := none,
         status := MatchStatus.SCHEDULED, sched := 0 },
       { round := some 1, home := some 3, away := some 4, group := none,
         status := MatchStatus.SCHEDULED, sched := 0 }] ∧
    (generate_single_elimination_schedule_with_dates [] [1, 2, 3, 4] 0 100
        Frequency.ALL_DAYS).length = 2 ∧
    (∀ m ∈ generate_single_elimination_schedule_with_dates [] [1, 2, 3, 4] 0 100
        Frequency.ALL_DAYS, m.round = some 1) := by
  refine ⟨by decide, by decide, by decide⟩

theorem seRound_fst_isSome (endD date roundNum : Nat) :
    ∀ l : List (Option Nat), ∀ m ∈ (seRound endD date roundNum l).1,
      m.home.isSome ∧ m.away.isSome
  | [] => by simp [seRound]
  | [t1] => by cases t1 <;> simp [seRound]
  | t1 :: t2 :: rest => by
    have ih := seRound_fst_isSome endD date roundNum rest
    cases t1 <;> cases t2 <;> simp only [seRound] <;> intro m hm
    · exact ih m hm
    · exact ih m hm
    · exact ih m hm
    · by_cases hdate : date ≤ endD
      · rw [if_pos hdate] at hm
        rcases List.mem_cons.mp hm with rfl | hm'
        · exact ⟨rfl, rfl⟩
        · exact ih m hm'
      · rw [if_neg hdate] at hm
        simp at hm

theorem seLoopFuel_isSome (cds : List Nat) (f : Frequency) (startD endD : Nat) :
    ∀ (fuel : Nat) (teams : List (Option Nat)) (roundNum date : Nat),
      ∀ m ∈ seLoopFuel cds f startD endD fuel teams roundNum date,
        m.home.isSome ∧ m.away.isSome := by
  intro fuel
  induction fuel with
  | zero => intro teams roundNum date m hm; simp [seLoopFuel] at hm
  | succ n ih =>
    intro teams roundNum date m hm
    simp only [seLoopFuel] at hm
    by_cases hc : 1 < teams.length ∧ date ≤ endD
    · rw [if_pos hc] at hm
      rcases List.mem_append.mp hm with h1 | h2
      · exact seRound_fst_isSome endD date roundNum teams m h1
      · exact ih _ _ _ m h2
    · rw [if_neg hc] at hm
      simp at hm

/-- C6 (amended to immediate-schedule mode only) — in the date-aware
single-elimination generator every created match is real-vs-real (both
slots filled), and a pairing of a real entity with a `None` bye creates
no match and advances the entity into the next round's slot list. -/
theorem C6_immediate_mode_byes (cds clubs : List Nat) (s e : Nat) (f : Frequency) :
    (∀ m ∈ generate_single_elimination_schedule_with_dates cds clubs s e f,
      m.home.isSome ∧ m.away.isSome) ∧
    (∀ (endD date roundNum a : Nat) (rest : List (Option Nat)),
      seRound endD date roundNum (some a :: none :: rest) =
        ((seRound endD date roundNum rest).1,
          some a :: (seRound endD date roundNum rest).2) ∧
      seRound endD date roundNum (none :: some a :: rest) =
        ((seRound endD date roundNum rest).1,
          some a :: (seRound endD date roundNum rest).2)) := by
  constructor
  · intro m hm
    simp only [generate_single_elimination_schedule_with_dates] at hm
    by_cases hlen : clubs.length < 2
    · rw [if_pos hlen] at hm
      simp at hm
    · rw [if_neg hlen] at hm
      exact seLoopFuel_isSome cds f s e _ _ _ _ m hm
  · intro endD date roundNum a rest
    constructor <;> rfl

/-- Witness for C6 (amended): for roster `[1, 2, 3]` the immediate
generator emits only the real-vs-real match `1` vs `2` (the bye entity
`3` plays no match), and its slots are both filled. -/
theorem C6_immediate_mode_byes_witness :
    generate_single_elimination_schedule_with_dates [] [1, 2, 3] 0 10
        Frequency.ALL_DAYS =
      [{ round := some 1, home := some 1, away := some 2, group := none,
         status := MatchStatus.SCHEDULED, sched := 0 }] ∧
    ({ round := some 1, home := some 1, away := some 2, group := none,
       status := MatchStatus.SCHEDULED, sched := 0 } : MatchRow).home.isSome ∧
    ({ round := some 1, home := some 1, away := some 2, group := none,
       status := MatchStatus.SCHEDULED, sched := 0 } : MatchRow).away.isSome := by
  refine ⟨by decide, ?_⟩
  exact (C6_immediate_mode_byes [] [1, 2, 3] 0 10 Frequency.ALL_DAYS).1
    { round := some 1, home := some 1, away := some 2, group := none,
      status := MatchStatus.SCHEDULED, sched := 0 } (by decide)

/-- Counterexample to C6 as stated for draft mode: with roster
`[1, 2, 3]` (padded to 4 with one bye), the draft generator *does*
create a round-1 Match record for the bye pairing — entity 3 against an
empty slot — instead of advancing entity 3 without a match. -/
theorem C6_counterexample :
    ∃ m ∈ generate_draft_single_elimination_schedule [1, 2, 3] 0,
      m.round = some 1 ∧ m.home = some 3 ∧ m.away = none := by
  decide

/-! ## League / round robin:
`Competition._generate_league_schedule_with_dates` -/

/-- `itertools.combinations(l, 2)` in enumeration order. -/
def combos : List Nat → List (Nat × Nat)
  | [] => []
  | x :: rest => (rest.map fun y => (x, y)) ++ combos rest

/-- The inner `for home_team, away_team in itertools.combinations(...)`
loop of `_generate_league_schedule_with_dates` (models.py:1335-1354):
checks date exhaustion before each pair, creates a round-1 match, then
advances the date cursor.  Returns (created matches, cursor at exit). -/
def leaguePairsLoop (cds : List Nat) (f : Frequency) (s e : Nat) (g : Option Nat) :
    List (Nat × Nat) → Nat → List MatchRow × Nat
  | [], d => ([], d)
  | (h, a) :: rest, d =>
    if e < d then ([], d)
    else
      let r := leaguePairsLoop cds f s e g rest (get_next_available_date cds d f s e)
      ({ round := some 1, home := some h, away := some a, group := g,
         status := MatchStatus.SCHEDULED, sched := d } :: r.1, r.2)

/-- The outer `for group_idx, group_clubs in enumerate(groups)` loop
(models.py:1331-1357): skips groups of fewer than 2 entities, threads
the date cursor across groups, and breaks once the cursor has passed
`end_date`. -/
def leagueGroupsLoop (cds : List Nat) (f : Frequency) (s e : Nat) (isGroups : Bool) :
    List (List Nat) → Nat → Nat → List MatchRow
  | [], _, _ => []
  | g :: rest, gi, d =>
    if g.length < 2 then leagueGroupsLoop cds f s e isGroups rest (gi + 1) d
    else
      let r := leaguePairsLoop cds f s e (if isGroups then some (gi + 1) else none)
        (combos g) d
      if e < r.2 then r.1
      else r.1 ++ leagueGroupsLoop cds f s e isGroups rest (gi + 1) r.2

/-- `Competition._generate_league_schedule_with_dates`
(models.py:1315-1359).  `groups` stands for the output of
`_organize_clubs_into_groups` (which shuffles randomly); it is only
consulted when `is_league_with_groups` is set. -/
def generate_league_schedule_with_dates (cds : List Nat) (isGroups : Bool)
    (groups : List (List Nat)) (clubs : List Nat) (s e : Nat) (f : Frequency) :
    List MatchRow :=
  if clubs.length < 2 then []
  else leagueGroupsLoop cds f s e isGroups (if isGroups then groups else [clubs]) 0 s

/-- The date-cursor orbit: `dateIterFrom … d k` is the cursor after `k`
advancements starting at `d`. -/
def dateIterFrom (cds : List Nat) (f : Frequency) (s e : Nat) (d : Nat) : Nat → Nat
  | 0 => d
  | k + 1 => get_next_available_date cds (dateIterFrom cds f s e d k) f s e

theorem dateIterFrom_shift (cds : List Nat) (f : Frequency) (s e d : Nat) :
    ∀ k, dateIterFrom cds f s e d (k + 1) =
      dateIterFrom cds f s e (get_next_available_date cds d f s e) k := by
  intro k
  induction k with
  | zero => rfl
  | succ n ih =>
    show get_next_available_date cds (dateIterFrom cds f s e d (n + 1)) f s e = _
    rw [ih]
    rfl

theorem leaguePairsLoop_complete (cds : List Nat) (f : Frequency) (s e : Nat)
    (g : Option Nat) :
    ∀ (ps : List (Nat × Nat)) (d : Nat),
      (∀ k < ps.length, dateIterFrom cds f s e d k ≤ e) →
      ((leaguePairsLoop cds f s e g ps d).1.map fun m => (m.home, m.away)) =
          ps.map (fun pr => (some pr.1, some pr.2)) ∧
        ∀ m ∈ (leaguePairsLoop cds f s e g ps d).1, m.round = some 1 ∧ m.group = g := by
  intro ps
  induction ps with
  | nil =>
    intro d _
    exact ⟨rfl, by simp [leaguePairsLoop]⟩
  | cons pr rest ih =>
    intro d hcur
    obtain ⟨h, a⟩ := pr
    have hd : d ≤ e := by simpa [dateIterFrom] using hcur 0 (by simp)
    simp only [leaguePairsLoop, if_neg (not_lt.mpr hd)]
    have hrest : ∀ k < rest.length,
        dateIterFrom cds f s e (get_next_available_date cds d f s e) k ≤ e := by
      intro k hk
      have := hcur (k + 1) (by simpa using Nat.succ_lt_succ hk)
      rwa [dateIterFrom_shift] at this
    obtain ⟨ihmap, ihall⟩ := ih (get_next_available_date cds d f s e) hrest
    refine ⟨?_, ?_⟩
    · simp only [List.map_cons]
      rw [ihmap]
    · intro m hm
      rcases List.mem_cons.mp hm with rfl | hm'
      · exact ⟨rfl, rfl⟩
      · exact ihall m hm'

theorem combos_length (l : List Nat) :
    2 * (combos l).length = l.length * (l.length - 1) := by
  induction l with
  | nil => simp [combos]
  | cons x t ih =>
    simp only [combos, List.length_append, List.length_map, List.length_cons]
    cases hn : t.length with
    | zero =>
      rw [hn] at ih
      omega
    | succ m =>
      rw [hn] at ih
      simp only [Nat.add_sub_cancel] at ih
      have key : (m + 2) * (m + 1) = 2 * (m + 1) + (m + 1) * m := by ring
      calc 2 * (m + 1 + (combos t).length)
          = 2 * (m + 1) + 2 * (combos t).length := by ring
        _ = 2 * (m + 1) + (m + 1) * m := by rw [ih]
        _ = (m + 2) * (m + 1) := key.symm
        _ = (m + 1 + 1) * (m + 1 + 1 - 1) := by norm_num

theorem combos_mem (l : List Nat) : ∀ pr ∈ combos l, pr.1 ∈ l ∧ pr.2 ∈ l := by
  induction l with
  | nil => simp [combos]
  | cons x t ih =>
    intro pr hpr
    simp only [combos, List.mem_append, List.mem_map] at hpr
    rcases hpr with ⟨y, hy, rfl⟩ | h2
    · exact ⟨List.mem_cons_self _ _, List.mem_cons_of_mem _ hy⟩
    · obtain ⟨h1, h2'⟩ := ih pr h2
      exact ⟨List.mem_cons_of_mem _ h1, List.mem_cons_of_mem _ h2'⟩

theorem countP_eq_one_of_nodup_mem :
    ∀ {t : List Nat}, t.Nodup → ∀ {b : Nat}, b ∈ t →
      t.countP (fun y => decide (y = b)) = 1 := by
  intro t
  induction t with
  | nil => intro _ b hb; simp at hb
  | cons z r ih =>
    intro hnd b hb
    obtain ⟨hz, hr⟩ := List.nodup_cons.mp hnd
    rw [List.countP_cons]
    rcases List.mem_cons.mp hb with rfl | hbr
    · have hzero : r.countP (fun y => decide (y = b)) = 0 := by
        rw [List.countP_eq_zero]
        intro y hy
        simp only [decide_eq_true_eq]
        intro hyb
        exact hz (hyb ▸ hy)
      simp [hzero]
    · have hzb : z ≠ b := fun hzb => hz (hzb ▸ hbr)
      simp [ih hr hbr, hzb]

theorem combos_countP_zero (a b : Nat) (l : List Nat) (hl : a ∉ l ∨ b ∉ l) :
    (combos l).countP
      (fun pr => decide ((pr.1 = a ∧ pr.2 = b) ∨ (pr.1 = b ∧ pr.2 = a))) = 0 := by
  rw [List.countP_eq_zero]
  intro pr hpr
  obtain ⟨h1, h2⟩ := combos_mem l pr hpr
  simp only [decide_eq_true_eq]
  rintro (⟨ha, hb⟩ | ⟨hb, ha⟩) <;>
    rcases hl with hl | hl <;>
      first
        | exact hl (ha ▸ h1)
        | exact hl (hb ▸ h2)
        | exact hl (hb ▸ h1)
        | exact hl (ha ▸ h2)

theorem combos_countP_one (a b : Nat) (hab : a ≠ b) :
    ∀ (l : List Nat), l.Nodup → a ∈ l → b ∈ l →
      (combos l).countP
        (fun pr => decide ((pr.1 = a ∧ pr.2 = b) ∨ (pr.1 = b ∧ pr.2 = a))) = 1 := by
  intro l
  induction l with
  | nil => intro _ ha _; simp at ha
  | cons x t ih =>
    intro hnd ha hb
    obtain ⟨hx, ht⟩ := List.nodup_cons.mp hnd
    simp only [combos, List.countP_append, List.countP_map]
    rcases List.mem_cons.mp ha with rfl | hat
    · have hbt : b ∈ t := by
        rcases List.mem_cons.mp hb with rfl | hbt
        · exact absurd rfl hab
        · exact hbt
      show t.countP (fun y => decide ((a = a ∧ y = b) ∨ (a = b ∧ y = a))) +
        (combos t).countP
          (fun pr => decide ((pr.1 = a ∧ pr.2 = b) ∨ (pr.1 = b ∧ pr.2 = a))) = 1
      have h1 : t.countP (fun y => decide ((a = a ∧ y = b) ∨ (a = b ∧ y = a))) = 1 := by
        have heq : (fun y => decide ((a = a ∧ y = b) ∨ (a = b ∧ y = a))) =
            fun y => decide (y = b) := by
          funext y
          rw [decide_eq_decide]
          simp [hab]
        rw [heq]
        exact countP_eq_one_of_nodup_mem ht hbt
      rw [h1, combos_countP_zero a b t (Or.inl hx)]
    · rcases List.mem_cons.mp hb with rfl | hbt
      · show t.countP (fun y => decide ((b = a ∧ y = b) ∨ (b = b ∧ y = a))) +
          (combos t).countP
            (fun pr => decide ((pr.1 = a ∧ pr.2 = b) ∨ (pr.1 = b ∧ pr.2 = a))) = 1
        have h1 : t.countP (fun y => decide ((b = a ∧ y = b) ∨ (b = b ∧ y = a))) = 1 := by
          have heq : (fun y => decide ((b = a ∧ y = b) ∨ (b = b ∧ y = a))) =
              fun y => decide (y = a) := by
            funext y
            rw [decide_eq_decide]
            have hba : b ≠ a := fun h => hab h.symm
            simp [hba]
          rw [heq]
          exact countP_eq_one_of_nodup_mem ht hat
        rw [h1, combos_countP_zero a b t (Or.inr hx)]
      · have hax : x ≠ a := fun h => hx (h ▸ hat)
        have hbx : x ≠ b := fun h => hx (h ▸ hbt)
        show t.countP (fun y => decide ((x = a ∧ y = b) ∨ (x = b ∧ y = a))) +
          (combos t).countP
            (fun pr => decide ((pr.1 = a ∧ pr.2 = b) ∨ (pr.1 = b ∧ pr.2 = a))) = 1
        have hmapzero : t.countP
            (fun y => decide ((x = a ∧ y = b) ∨ (x = b ∧ y = a))) = 0 := by
          rw [List.countP_eq_zero]
          intro y _
          simp only [decide_eq_true_eq]
          rintro (⟨h1, _⟩ | ⟨h1, _⟩)
          · exact hax h1
          · exact hbx h1
        rw [hmapzero, ih ht hat hbt]

theorem generate_league_no_groups_eq (cds clubs : List Nat) (s e : Nat) (f : Frequency)
    (hlen : ¬ clubs.length < 2) :
    generate_league_schedule_with_dates cds false [] clubs s e f =
      (leaguePairsLoop cds f s e none (combos clubs) s).1 := by
  simp only [generate_league_schedule_with_dates, if_neg hlen]
  show (if clubs.length < 2 then leagueGroupsLoop cds f s e false [] 1 s
    else
      if e < (leaguePairsLoop cds f s e none (combos clubs) s).2 then
        (leaguePairsLoop cds f s e none (combos clubs) s).1
      else
        (leaguePairsLoop cds f s e none (combos clubs) s).1 ++
          leagueGroupsLoop cds f s e false [] 1
            (leaguePairsLoop cds f s e none (combos clubs) s).2) = _
  rw [if_neg hlen]
  by_cases hend : e < (leaguePairsLoop cds f s e none (combos clubs) s).2
  · rw [if_pos hend]
  · rw [if_neg hend]
    rw [show leagueGroupsLoop cds f s e false [] 1
        (leaguePairsLoop cds f s e none (combos clubs) s).2 = [] from rfl]
    exact List.append_nil _

/-- C3 — for a duplicate-free roster of `n ≥ 2` entities with no
groups and a window the date cursor never exhausts
(`dateIterFrom … s k ≤ e` for every step `k` below the pair count),
the league/round-robin generator emits exactly `n*(n-1)/2` matches,
all with `round_number = 1`, and every unordered pair of roster
entities appears in exactly one match. -/
theorem C3_league_pairs_once (cds clubs : List Nat) (s e : Nat) (f : Frequency)
    (hnd : clubs.Nodup) (hlen : 2 ≤ clubs.length)
    (hdates : ∀ k < clubs.length * (clubs.length - 1) / 2, dateIterFrom cds f s e s k ≤ e) :
    (generate_league_schedule_with_dates cds false [] clubs s e f).length =
        clubs.length * (clubs.length - 1) / 2 ∧
      (∀ m ∈ generate_league_schedule_with_dates cds false [] clubs s e f,
        m.round = some 1) ∧
      (∀ a b, a ≠ b → a ∈ clubs → b ∈ clubs →
        (generate_league_schedule_with_dates cds false [] clubs s e f).countP
          (fun m => decide ((m.home = some a ∧ m.away = some b) ∨
            (m.home = some b ∧ m.away = some a))) = 1) := by
  have hlen' : ¬ clubs.length < 2 := not_lt.mpr hlen
  have hcombos : (combos clubs).length = clubs.length * (clubs.length - 1) / 2 := by
    have := combos_length clubs
    omega
  have hdates' : ∀ k < (combos clubs).length, dateIterFrom cds f s e s k ≤ e := by
    intro k hk
    exact hdates k (hcombos ▸ hk)
  obtain ⟨hmap, hall⟩ :=
    leaguePairsLoop_complete cds f s e none (combos clubs) s hdates'
  rw [generate_league_no_groups_eq cds clubs s e f hlen']
  have hlength : (leaguePairsLoop cds f s e none (combos clubs) s).1.length =
      (combos clubs).length := by
    have := congrArg List.length hmap
    simpa using this
  refine ⟨hlength.trans hcombos, fun m hm => (hall m hm).1, ?_⟩
  intro a b hab ha hb
  have hstep : (leaguePairsLoop cds f s e none (combos clubs) s).1.countP
      (fun m => decide ((m.home = some a ∧ m.away = some b) ∨
        (m.home = some b ∧ m.away = some a))) =
      ((leaguePairsLoop cds f s e none (combos clubs) s).1.map
        fun m => (m.home, m.away)).countP
        (fun pr => decide ((pr.1 = some a ∧ pr.2 = some b) ∨
          (pr.1 = some b ∧ pr.2 = some a))) := by
    rw [List.countP_map]
    rfl
  rw [hstep, hmap, List.countP_map]
  show (combos clubs).countP
      (fun pr => decide ((some pr.1 = some a ∧ some pr.2 = some b) ∨
        (some pr.1 = some b ∧ some pr.2 = some a))) = 1
  have hpred : (fun pr : Nat × Nat =>
      decide ((some pr.1 = some a ∧ some pr.2 = some b) ∨
        (some pr.1 = some b ∧ some pr.2 = some a))) =
      fun pr : Nat × Nat =>
        decide ((pr.1 = a ∧ pr.2 = b) ∨ (pr.1 = b ∧ pr.2 = a)) := by
    funext pr
    rw [decide_eq_decide]
    simp
  rw [hpred]
  exact combos_countP_one a b hab clubs hnd ha hb

/-- Witness for C3: roster `[1,2,3,4]`, window days 0..10, ALL_DAYS —
6 matches, and the pair `{1, 2}` appears exactly once. -/
theorem C3_league_pairs_once_witness :
    (generate_league_schedule_with_dates [] false [] [1, 2, 3, 4] 0 10
        Frequency.ALL_DAYS).length = 6 ∧
      (generate_league_schedule_with_dates [] false [] [1, 2, 3, 4] 0 10
        Frequency.ALL_DAYS).countP
        (fun m => decide ((m.home = some 1 ∧ m.away = some 2) ∨
          (m.home = some 2 ∧ m.away = some 1))) = 1 := by
  have h := C3_league_pairs_once [] [1, 2, 3, 4] 0 10 Frequency.ALL_DAYS
    (by decide) (by decide) (by decide)
  exact ⟨h.1, h.2.2 1 2 (by decide) (by decide) (by decide)⟩

/-! ## Entity roster provider: `Competition.get_enrolled_clubs_list` -/

/-- The trailing `for club in enrolled: if club.id not in existing_ids
and club not in ordered_entities: ordered_entities.append(club)` loop of
`get_enrolled_clubs_list` (models.py:1107-1111): appends the enrolled
entities missing from the cached seeding, checking membership against
the list as it grows. -/
def addRemaining (seeding : List Nat) : List Nat → List Nat → List Nat
  | acc, [] => acc
  | acc, c :: rest =>
    if c ∉ seeding ∧ c ∉ acc then addRemaining seeding (acc ++ [c]) rest
    else addRemaining seeding acc rest

/-- `Competition.get_enrolled_clubs_list` (models.py:1077-1119).  The
cached seeding entry is truthy exactly when it is a non-empty list; the
`clubs_map` lookup keeps a cached id only when it belongs to an enrolled
entity (appending once per occurrence in the cached list). -/
def get_enrolled_clubs_list (enrolled : List Nat) (cache : Option (List Nat)) : List Nat :=
  match cache with
  | some seeding =>
    if seeding.isEmpty then enrolled
    else addRemaining seeding (seeding.filter fun i => decide (i ∈ enrolled)) enrolled
  | none => enrolled

theorem addRemaining_mem_mono (seeding : List Nat) :
    ∀ (l acc : List Nat) (x : Nat), x ∈ acc → x ∈ addRemaining seeding acc l := by
  intro l
  induction l with
  | nil => intro acc x hx; exact hx
  | cons c rest ih =>
    intro acc x hx
    simp only [addRemaining]
    by_cases hc : c ∉ seeding ∧ c ∉ acc
    · rw [if_pos hc]
      exact ih _ x (List.mem_append_left _ hx)
    · rw [if_neg hc]
      exact ih _ x hx

theorem addRemaining_mem_sub (seeding : List Nat) :
    ∀ (l acc : List Nat) (x : Nat), x ∈ addRemaining seeding acc l → x ∈ acc ∨ x ∈ l := by
  intro l
  induction l with
  | nil => intro acc x hx; exact Or.inl hx
  | cons c rest ih =>
    intro acc x hx
    simp only [addRemaining] at hx
    by_cases hc : c ∉ seeding ∧ c ∉ acc
    · rw [if_pos hc] at hx
      rcases ih _ x hx with h | h
      · rcases List.mem_append.mp h with h' | h'
        · exact Or.inl h'
        · simp only [List.mem_singleton] at h'
          exact Or.inr (h' ▸ List.mem_cons_self c rest)
      · exact Or.inr (List.mem_cons_of_mem c h)
    · rw [if_neg hc] at hx
      rcases ih _ x hx with h | h
      · exact Or.inl h
      · exact Or.inr (List.mem_cons_of_mem c h)

theorem addRemaining_complete (seeding : List Nat) :
    ∀ (l acc : List Nat) (x : Nat), x ∈ l → x ∉ seeding →
      x ∈ addRemaining seeding acc l := by
  intro l
  induction l with
  | nil => intro acc x hx _; simp at hx
  | cons c rest ih =>
    intro acc x hx hxs
    simp only [addRemaining]
    rcases List.mem_cons.mp hx with rfl | hxr
    · by_cases hc : x ∉ seeding ∧ x ∉ acc
      · rw [if_pos hc]
        exact addRemaining_mem_mono seeding rest _ x
          (List.mem_append_right _ (List.mem_singleton_self x))
      · rw [if_neg hc]
        push_neg at hc
        exact addRemaining_mem_mono seeding rest _ x (hc hxs)
    · by_cases hc : c ∉ seeding ∧ c ∉ acc
      · rw [if_pos hc]
        exact ih _ x hxr hxs
      · rw [if_neg hc]
        exact ih _ x hxr hxs

theorem addRemaining_nodup (seeding : List Nat) :
    ∀ (l acc : List Nat), acc.Nodup → (addRemaining seeding acc l).Nodup := by
  intro l
  induction l with
  | nil => intro acc h; exact h
  | cons c rest ih =>
    intro acc hacc
    simp only [addRemaining]
    by_cases hc : c ∉ seeding ∧ c ∉ acc
    · rw [if_pos hc]
      refine ih _ ?_
      rw [List.nodup_append]
      refine ⟨hacc, List.nodup_singleton c, ?_⟩
      intro a ha hb
      simp only [List.mem_singleton] at hb
      exact hc.2 (hb ▸ ha)
    · rw [if_neg hc]
      exact ih _ hacc

/-- C10 (amended) — the roster provider never returns a non-enrolled
entity and returns every enrolled entity; when the cached seeding entry
has no duplicate identifiers the returned roster lists each enrolled
entity exactly once (enrolled entities are pairwise distinct rows). -/
theorem C10_roster_exact (enrolled : List Nat) (cache : Option (List Nat))
    (hnd : enrolled.Nodup) :
    (∀ x ∈ get_enrolled_clubs_list enrolled cache, x ∈ enrolled) ∧
    (∀ x ∈ enrolled, x ∈ get_enrolled_clubs_list enrolled cache) ∧
    ((∀ sd, cache = some sd → sd.Nodup) →
      ∀ x, (get_enrolled_clubs_list enrolled cache).count x =
        if x ∈ enrolled then 1 else 0) := by
  have hsub : ∀ x ∈ get_enrolled_clubs_list enrolled cache, x ∈ enrolled := by
    intro x hx
    cases cache with
    | none => exact hx
    | some sd =>
      simp only [get_enrolled_clubs_list] at hx
      by_cases hemp : sd.isEmpty
      · rw [if_pos hemp] at hx
        exact hx
      · rw [if_neg hemp] at hx
        rcases addRemaining_mem_sub sd enrolled _ x hx with h | h
        · have := List.mem_filter.mp h
          simpa using this.2
        · exact h
  have hsup : ∀ x ∈ enrolled, x ∈ get_enrolled_clubs_list enrolled cache := by
    intro x hx
    cases cache with
    | none => exact hx
    | some sd =>
      simp only [get_enrolled_clubs_list]
      by_cases hemp : sd.isEmpty
      · rw [if_pos hemp]
        exact hx
      · rw [if_neg hemp]
        by_cases hxs : x ∈ sd
        · refine addRemaining_mem_mono sd enrolled _ x ?_
          rw [List.mem_filter]
          exact ⟨hxs, by simpa using hx⟩
        · exact addRemaining_complete sd enrolled _ x hx hxs
  refine ⟨hsub, hsup, ?_⟩
  intro hcnd x
  have hrnd : (get_enrolled_clubs_list enrolled cache).Nodup := by
    cases cache with
    | none => exact hnd
    | some sd =>
      simp only [get_enrolled_clubs_list]
      by_cases hemp : sd.isEmpty
      · rw [if_pos hemp]
        exact hnd
      · rw [if_neg hemp]
        exact addRemaining_nodup sd enrolled _ ((hcnd sd rfl).filter _)
  by_cases hx : x ∈ enrolled
  · rw [if_pos hx]
    exact List.count_eq_one_of_mem hrnd (hsup x hx)
  · rw [if_neg hx]
    rw [List.count_eq_zero]
    intro hmem
    exact hx (hsub x hmem)

/-- Witness for C10 (amended): enrolled `[1,2,3]`, cached seeding
`[3,1]` — entity 2 (absent from the cache) still appears exactly once. -/
theorem C10_roster_exact_witness :
    (get_enrolled_clubs_list [1, 2, 3] (some [3, 1])).count 2 = 1 ∧
      2 ∈ get_enrolled_clubs_list [1, 2, 3] (some [3, 1]) := by
  have h := C10_roster_exact [1, 2, 3] (some [3, 1]) (by decide)
  have hc := h.2.2 (fun sd hsd => by cases hsd; decide) 2
  have hmem : (2 : Nat) ∈ [1, 2, 3] := by decide
  rw [if_pos hmem] at hc
  exact ⟨hc, h.2.1 2 hmem⟩

/-- Counterexample to C10 as stated: a cached seeding entry with a
duplicated identifier makes the roster list an enrolled entity twice —
with enrolled `[5]` and cached seeding `[5, 5]` the provider returns
`[5, 5]`. -/
theorem C10_counterexample :
    get_enrolled_clubs_list [5] (some [5, 5]) = [5, 5] ∧
      (get_enrolled_clubs_list [5] (some [5, 5])).count 5 = 2 := by
  exact ⟨rfl, rfl⟩

/-! ## Validation gate and top-level generation:
`Competition.validate_for_scheduling`, `Competition.clean`,
`Competition.generate_schedule_for_format` -/

/-- `Competition.validate_for_scheduling` (models.py:1004-1056), as an
`Except`: the elimination-format branch is a `pass`, the LEAGUE /
ROUND_ROBIN branch requires at least 2 enrolled entities, the
league-with-groups branch requires the enrolled count to equal
`number_of_groups * clubs_per_group`, and in CLUBS mode a set, positive
`number_of_clubs` must equal the enrolled count (`number_of_clubs is
not None and number_of_clubs > 0` is `numberOfClubs.getD 0 > 0`).
Error messages are abbreviations of the source's f-strings. -/
def validate_for_scheduling (c : Competition) : Except String Unit :=
  let enrolledCount :=
    match c.participantType with
    | ParticipantType.PARTICIPANTS => c.enrolledParticipants.length
    | ParticipantType.CLUBS => c.enrolledClubs.length
  if (c.formatType = FormatType.LEAGUE ∨ c.formatType = FormatType.ROUND_ROBIN) ∧
      enrolledCount < 2 then
    Except.error "at least 2 entities are required"
  else if c.isLeagueWithGroups ∧ enrolledCount ≠ c.numberOfGroups * c.clubsPerGroup then
    Except.error "league-with-groups enrollment mismatch"
  else if c.participantType = ParticipantType.CLUBS ∧ 0 < c.numberOfClubs.getD 0 ∧
      enrolledCount ≠ c.numberOfClubs.getD 0 then
    Except.error "enrolled clubs do not match the planned number"
  else Except.ok ()

/-- `True` (as `Bool`) when an optional planned count is set and below 2
(`number_of_clubs is not None and number_of_clubs < 2`). -/
def planBelowTwo (o : Option Nat) : Bool :=
  match o with
  | some p => decide (p < 2)
  | none => false

/-- `True` (as `Bool`) when both dates are set and start is after end. -/
def badDateRange (s e : Option Nat) : Bool :=
  match s, e with
  | some sv, some ev => decide (ev < sv)
  | _, _ => false

/-- `Competition.clean` (models.py:911-984), as an `Except`, in source
order: planned-club minimum, LEAGUE/ROUND_ROBIN planned minimum (the
elimination branch is a `pass`), the COMING_SOON format gate, the
league-with-groups arithmetic checks, the per-participant-mode planned
minimum, and the date-range check.  This is the save-time validator, not
the scheduling-time gate. -/
def competition_clean (c : Competition) : Except String Unit :=
  if planBelowTwo c.numberOfClubs then
    Except.error "minimum number of clubs planned must be 2"
  else if c.numberOfClubs.isSome ∧
      (c.formatType = FormatType.LEAGUE ∨ c.formatType = FormatType.ROUND_ROBIN) ∧
      c.numberOfClubs.getD 0 < 2 then
    Except.error "at least 2 clubs are required for this format"
  else if c.formatStatus = FormatStatus.COMING_SOON then
    Except.error "the selected format is coming soon and not available"
  else if c.isLeagueWithGroups ∧ c.numberOfGroups < 1 then
    Except.error "number of groups must be at least 1"
  else if c.isLeagueWithGroups ∧ c.clubsPerGroup < 2 then
    Except.error "clubs per group must be at least 2"
  else if c.isLeagueWithGroups ∧
      c.numberOfClubs ≠ some (c.numberOfGroups * c.clubsPerGroup) then
    Except.error "planned clubs do not match groups times clubs per group"
  else if c.participantType = ParticipantType.PARTICIPANTS ∧
      planBelowTwo c.numberOfParticipants then
    Except.error "minimum number of participants planned must be 2"
  else if c.participantType = ParticipantType.CLUBS ∧ planBelowTwo c.numberOfClubs then
    Except.error "minimum number of clubs planned must be 2 (mode branch)"
  else if badDateRange c.startDate c.endDate then
    Except.error "start date cannot be after end date"
  else Except.ok ()

/-- The `range(0, len(shuffled_clubs), clubs_per_group)` chunking of
`_organize_clubs_into_groups` (models.py:1132-1137), with fuel; every
produced slice is non-empty, so the `if group:` guard never drops one. -/
def chunksFuel (k : Nat) : Nat → List Nat → List (List Nat)
  | 0, _ => []
  | _ + 1, [] => []
  | fuel + 1, x :: rest => ((x :: rest).take k) :: chunksFuel k fuel ((x :: rest).drop k)

/-- `Competition._organize_clubs_into_groups` (models.py:1121-1139).
`shuffled` stands for the outcome of `random.shuffle` on a copy of
`clubs` (non-determinism as an input). -/
def organize_clubs_into_groups (c : Competition) (clubs shuffled : List Nat) :
    List (List Nat) :=
  if ¬ c.isLeagueWithGroups ∨ c.numberOfGroups = 0 ∨ c.clubsPerGroup = 0 then [clubs]
  else chunksFuel c.clubsPerGroup shuffled.length shuffled

/-- The entity list the competition's participant mode enrolls. -/
def enrolledEntities (c : Competition) : List Nat :=
  match c.participantType with
  | ParticipantType.PARTICIPANTS => c.enrolledParticipants
  | ParticipantType.CLUBS => c.enrolledClubs

/-- `Competition.generate_schedule_for_format` (models.py:442-487):
validation gate first, then roster resolution, window defaulting
(`today` stands for `timezone.now().date()`), and format dispatch.  In
the source the dispatch line reads `elif self.format.format_type ==
'LEAGUE' or self.format_type == 'ROUND_ROBIN':`; `Competition` has no
`format_type` attribute, so every format other than SINGLE_ELIMINATION
and LEAGUE raises `AttributeError` when that disjunct is evaluated —
modelled as an error result. -/
def generate_schedule_for_format (c : Competition) (cache : Option (List Nat))
    (orderedParticipants : Option (List Nat)) (shuffled : List Nat) (today : Nat) :
    Except String (List MatchRow) :=
  match validate_for_scheduling c with
  | Except.error msg => Except.error msg
  | Except.ok _ =>
    let clubs :=
      match orderedParticipants with
      | some l => l
      | none => get_enrolled_clubs_list (enrolledEntities c) cache
    if clubs.length < 2 then Except.ok []
    else
      let startD := c.startDate.getD today
      let endD0 := c.endDate.getD (startD + 30)
      let endD := if startD > endD0 then startD + 30 else endD0
      let f := c.frequencyDay.getD Frequency.ALL_DAYS
      match c.formatType with
      | FormatType.SINGLE_ELIMINATION =>
        Except.ok (generate_single_elimination_schedule_with_dates c.customDays clubs
          startD endD f)
      | FormatType.LEAGUE =>
        Except.ok (generate_league_schedule_with_dates c.customDays c.isLeagueWithGroups
          (organize_clubs_into_groups c clubs shuffled) clubs startD endD f)
      | _ => Except.error "AttributeError: 'Competition' object has no attribute 'format_type'"

/-- C4 — in CLUBS mode with a positive planned club count that differs
from the enrolled count, the validation gate raises and schedule
generation surfaces the same error without reaching any generator (the
`Except.error` result carries no match list: nothing is created). -/
theorem C4_enrollment_mismatch_blocks (c : Competition) (cache op : Option (List Nat))
    (shuffled : List Nat) (today : Nat) (p : Nat)
    (hmode : c.participantType = ParticipantType.CLUBS)
    (hplan : c.numberOfClubs = some p) (hpos : 0 < p)
    (hneq : c.enrolledClubs.length ≠ p) :
    ∃ msg, validate_for_scheduling c = Except.error msg ∧
      generate_schedule_for_format c cache op shuffled today = Except.error msg := by
  have hval : ∃ msg, validate_for_scheduling c = Except.error msg := by
    simp only [validate_for_scheduling, hmode]
    by_cases h1 : (c.formatType = FormatType.LEAGUE ∨ c.formatType = FormatType.ROUND_ROBIN) ∧
        c.enrolledClubs.length < 2
    · rw [if_pos h1]
      exact ⟨_, rfl⟩
    · rw [if_neg h1]
      by_cases h2 : c.isLeagueWithGroups ∧
          c.enrolledClubs.length ≠ c.numberOfGroups * c.clubsPerGroup
      · rw [if_pos h2]
        exact ⟨_, rfl⟩
      · rw [if_neg h2]
        rw [if_pos ⟨trivial, by rw [hplan]; exact hpos, by rw [hplan]; exact hneq⟩]
        exact ⟨_, rfl⟩
  obtain ⟨msg, hmsg⟩ := hval
  refine ⟨msg, hmsg, ?_⟩
  simp only [generate_schedule_for_format]
  rw [hmsg]

/-- Witness for C4: a LEAGUE competition planning 4 clubs with only 3
enrolled — generation fails with the gate's error. -/
theorem C4_enrollment_mismatch_blocks_witness :
    generate_schedule_for_format
      { participantType := ParticipantType.CLUBS, formatType := FormatType.LEAGUE,
        formatStatus := FormatStatus.ACTIVE, numberOfClubs := some 4,
        numberOfParticipants := none, isLeagueWithGroups := false,
        numberOfGroups := 0, clubsPerGroup := 0, enrolledClubs := [1, 2, 3],
        enrolledParticipants := [], customDays := [], startDate := some 0,
        endDate := some 10, frequencyDay := some Frequency.ALL_DAYS }
      none none [] 0 =
      Except.error "enrolled clubs do not match the planned number" := by
  obtain ⟨msg, h1, h2⟩ := C4_enrollment_mismatch_blocks
    { participantType := ParticipantType.CLUBS, formatType := FormatType.LEAGUE,
      formatStatus := FormatStatus.ACTIVE, numberOfClubs := some 4,
      numberOfParticipants := none, isLeagueWithGroups := false,
      numberOfGroups := 0, clubsPerGroup := 0, enrolledClubs := [1, 2, 3],
      enrolledParticipants := [], customDays := [], startDate := some 0,
      endDate := some 10, frequencyDay := some Frequency.ALL_DAYS }
    none none [] 0 4 rfl rfl (by decide) (by decide)
  have hv : validate_for_scheduling
      { participantType := ParticipantType.CLUBS, formatType := FormatType.LEAGUE,
        formatStatus := FormatStatus.ACTIVE, numberOfClubs := some 4,
        numberOfParticipants := none, isLeagueWithGroups := false,
        numberOfGroups := 0, clubsPerGroup := 0, enrolledClubs := [1, 2, 3],
        enrolledParticipants := [], customDays := [], startDate := some 0,
        endDate := some 10, frequencyDay := some Frequency.ALL_DAYS } =
      Except.error "enrolled clubs do not match the planned number" := rfl
  rw [hv] at h1
  injection h1 with h
  rw [← h] at h2
  exact h2

/-- C9 (amended) — the scheduling-time validation gate does not inspect
the format's status at all (its outcome is invariant under changing the
status), and it is the save-time validator `Competition.clean` that
rejects a COMING_SOON format. -/
theorem C9_coming_soon_checked_at_save (c : Competition) :
    (∀ st, validate_for_scheduling { c with formatStatus := st } =
      validate_for_scheduling c) ∧
    (c.formatStatus = FormatStatus.COMING_SOON →
      ∃ msg, competition_clean c = Except.error msg) := by
  constructor
  · intro st
    cases c
    rfl
  · intro hst
    simp only [competition_clean]
    split_ifs with h1 h2 <;> exact ⟨_, rfl⟩

/-- Witness for C9 (amended) at a concrete COMING_SOON LEAGUE format:
the scheduling gate ignores the status while the save-time validator
rejects it. -/
theorem C9_coming_soon_checked_at_save_witness :
    validate_for_scheduling
      { participantType := ParticipantType.CLUBS, formatType := FormatType.LEAGUE,
        formatStatus := FormatStatus.ACTIVE, numberOfClubs := some 2,
        numberOfParticipants := none, isLeagueWithGroups := false,
        numberOfGroups := 0, clubsPerGroup := 0, enrolledClubs := [1, 2],
        enrolledParticipants := [], customDays := [], startDate := some 0,
        endDate := some 10, frequencyDay := some Frequency.ALL_DAYS } =
      validate_for_scheduling
        { participantType := ParticipantType.CLUBS, formatType := FormatType.LEAGUE,
          formatStatus := FormatStatus.COMING_SOON, numberOfClubs := some 2,
          numberOfParticipants := none, isLeagueWithGroups := false,
          numberOfGroups := 0, clubsPerGroup := 0, enrolledClubs := [1, 2],
          enrolledParticipants := [], customDays := [], startDate := some 0,
          endDate := some 10, frequencyDay := some Frequency.ALL_DAYS } ∧
    competition_clean
      { participantType := ParticipantType.CLUBS, formatType := FormatType.LEAGUE,
        formatStatus := FormatStatus.COMING_SOON, numberOfClubs := some 2,
        numberOfParticipants := none, isLeagueWithGroups := false,
        numberOfGroups := 0, clubsPerGroup := 0, enrolledClubs := [1, 2],
        enrolledParticipants := [], customDays := [], startDate := some 0,
        endDate := some 10, frequencyDay := some Frequency.ALL_DAYS } =
      Except.error "the selected format is coming soon and not available" := by
  obtain ⟨msg, hmsg⟩ := (C9_coming_soon_checked_at_save
    { participantType := ParticipantType.CLUBS, formatType := FormatType.LEAGUE,
      formatStatus := FormatStatus.COMING_SOON, numberOfClubs := some 2,
      numberOfParticipants := none, isLeagueWithGroups := false,
      numberOfGroups := 0, clubsPerGroup := 0, enrolledClubs := [1, 2],
      enrolledParticipants := [], customDays := [], startDate := some 0,
      endDate := some 10, frequencyDay := some Frequency.ALL_DAYS }).2 rfl
  have hid : msg = "the selected format is coming soon and not available" := by
    have hv : competition_clean
        { participantType := ParticipantType.CLUBS, formatType := FormatType.LEAGUE,
          formatStatus := FormatStatus.COMING_SOON, numberOfClubs := some 2,
          numberOfParticipants := none, isLeagueWithGroups := false,
          numberOfGroups := 0, clubsPerGroup := 0, enrolledClubs := [1, 2],
          enrolledParticipants := [], customDays := [], startDate := some 0,
          endDate := some 10, frequencyDay := some Frequency.ALL_DAYS } =
        Except.error "the selected format is coming soon and not available" := rfl
    rw [hv] at hmsg
    injection hmsg with h
    exact h.symm
  refine ⟨(C9_coming_soon_checked_at_save
    { participantType := ParticipantType.CLUBS, formatType := FormatType.LEAGUE,
      formatStatus := FormatStatus.COMING_SOON, numberOfClubs := some 2,
      numberOfParticipants := none, isLeagueWithGroups := false,
      numberOfGroups := 0, clubsPerGroup := 0, enrolledClubs := [1, 2],
      enrolledParticipants := [], customDays := [], startDate := some 0,
      endDate := some 10, frequencyDay := some Frequency.ALL_DAYS }).1
        FormatStatus.ACTIVE, ?_⟩
  rw [← hid]
  exact hmsg

/-- Counterexample to C9 as stated: for a competition whose (LEAGUE)
format has status COMING_SOON and which passes the other gate checks,
`validate_for_scheduling` succeeds and the league generator runs,
creating a match — the gate run at the start of schedule generation does
not fail on COMING_SOON. -/
theorem C9_counterexample :
    validate_for_scheduling
      { participantType := ParticipantType.CLUBS, formatType := FormatType.LEAGUE,
        formatStatus := FormatStatus.COMING_SOON, numberOfClubs := some 2,
        numberOfParticipants := none, isLeagueWithGroups := false,
        numberOfGroups := 0, clubsPerGroup := 0, enrolledClubs := [1, 2],
        enrolledParticipants := [], customDays := [], startDate := some 0,
        endDate := some 10, frequencyDay := some Frequency.ALL_DAYS } =
      Except.ok () ∧
    generate_schedule_for_format
      { participantType := ParticipantType.CLUBS, formatType := FormatType.LEAGUE,
        formatStatus := FormatStatus.COMING_SOON, numberOfClubs := some 2,
        numberOfParticipants := none, isLeagueWithGroups := false,
        numberOfGroups := 0, clubsPerGroup := 0, enrolledClubs := [1, 2],
        enrolledParticipants := [], customDays := [], startDate := some 0,
        endDate := some 10, frequencyDay := some Frequency.ALL_DAYS }
      none none [] 0 =
      Except.ok [{ round := some 1, home := some 1, away := some 2, group := none,
                   status := MatchStatus.SCHEDULED, sched := 0 }] := by
  exact ⟨rfl, rfl⟩

/-! ## Winner advancement: `views._advance_winner_to_next_round` -/

/-- The `for next_match in next_round_matches` loop of
`_advance_winner_to_next_round` (views.py:626-646) over the competition's
match table in id (creation) order: the first match of the next round
with an empty home slot gets the winner as home and the loop breaks;
otherwise, if its away slot is empty, the winner goes there; a
next-round match with both slots taken is skipped. -/
def fillNextRound (nr winner : Nat) : List MatchRow → List MatchRow
  | [] => []
  | x :: rest =>
    if x.round = some nr then
      if x.home = none then { x with home := some winner } :: rest
      else if x.away = none then { x with away := some winner } :: rest
      else x :: fillNextRound nr winner rest
    else x :: fillNextRound nr winner rest

/-- `views._advance_winner_to_next_round` (views.py:610-646): a no-op
when the completed match has no truthy round number (`None` or `0`) or
the format is not SINGLE_ELIMINATION; otherwise fills the first open
slot in round `round_number + 1`.  `table` is the competition's match
table in creation order. -/
def advance_winner_to_next_round (fmt : FormatType) (table : List MatchRow)
    (m : MatchRow) (winner : Nat) : List MatchRow :=
  match m.round with
  | none => table
  | some r =>
    if r = 0 then table
    else if fmt ≠ FormatType.SINGLE_ELIMINATION then table
    else fillNextRound (r + 1) winner table

/-- Modelled from the spec: first next-round match with an empty home
slot, used by `spec_advance_winner` for comparison with the code. -/
def fillHomeFirst (nr winner : Nat) : List MatchRow → List MatchRow
  | [] => []
  | x :: rest =>
    if x.round = some nr ∧ x.home = none then { x with home := some winner } :: rest
    else x :: fillHomeFirst nr winner rest

/-- Modelled from the spec: first next-round match with an empty away
slot, used by `spec_advance_winner` for comparison with the code. -/
def fillAwayFirst (nr winner : Nat) : List MatchRow → List MatchRow
  | [] => []
  | x :: rest =>
    if x.round = some nr ∧ x.away = none then { x with away := some winner } :: rest
    else x :: fillAwayFirst nr winner rest

/-- Modelled from the spec: the claimed advancement rule of §4.5 — "the
first match with an empty home slot; if none, the first with an empty
away slot" — stated over the same match table, for comparison with
`advance_winner_to_next_round`. -/
def spec_advance_winner (fmt : FormatType) (table : List MatchRow)
    (m : MatchRow) (winner : Nat) : List MatchRow :=
  match m.round with
  | none => table
  | some r =>
    if fmt ≠ FormatType.SINGLE_ELIMINATION then table
    else if table.any (fun x => x.round == some (r + 1) && x.home == none) then
      fillHomeFirst (r + 1) winner table
    else if table.any (fun x => x.round == some (r + 1) && x.away == none) then
      fillAwayFirst (r + 1) winner table
    else table

theorem fillNextRound_noop (nr w : Nat) :
    ∀ l : List MatchRow,
      (∀ x ∈ l, x.round = some nr → x.home ≠ none ∧ x.away ≠ none) →
      fillNextRound nr w l = l := by
  intro l
  induction l with
  | nil => intro _; rfl
  | cons x rest ih =>
    intro hall
    simp only [fillNextRound]
    by_cases hr : x.round = some nr
    · obtain ⟨hh, ha⟩ := hall x (List.mem_cons_self x rest) hr
      rw [if_pos hr, if_neg hh, if_neg ha]
      rw [ih fun y hy => hall y (List.mem_cons_of_mem x hy)]
    · rw [if_neg hr]
      rw [ih fun y hy => hall y (List.mem_cons_of_mem x hy)]

theorem fillNextRound_fill (nr w : Nat) :
    ∀ (pre : List MatchRow) (x : MatchRow) (post : List MatchRow),
      (∀ y ∈ pre, ¬ (y.round = some nr ∧ (y.home = none ∨ y.away = none))) →
      x.round = some nr → (x.home = none ∨ x.away = none) →
      fillNextRound nr w (pre ++ x :: post) =
        pre ++ (if x.home = none then { x with home := some w }
                else { x with away := some w }) :: post := by
  intro pre
  induction pre with
  | nil =>
    intro x post _ hr hslot
    simp only [List.nil_append, fillNextRound, if_pos hr]
    by_cases hh : x.home = none
    · rw [if_pos hh, if_pos hh]
    · rcases hslot with hh' | ha
      · exact absurd hh' hh
      · rw [if_neg hh, if_pos ha, if_neg hh]
  | cons y pre' ih =>
    intro x post hpre hr hslot
    have hy := hpre y (List.mem_cons_self y pre')
    simp only [List.cons_append, fillNextRound]
    by_cases hyr : y.round = some nr
    · have hboth : y.home ≠ none ∧ y.away ≠ none := by
        constructor
        · intro hh
          exact hy ⟨hyr, Or.inl hh⟩
        · intro ha
          exact hy ⟨hyr, Or.inr ha⟩
      rw [if_pos hyr, if_neg hboth.1, if_neg hboth.2]
      exact congrArg (fun t => y :: t)
        (ih x post (fun z hz => hpre z (List.mem_cons_of_mem y hz)) hr hslot)
    · rw [if_neg hyr]
      exact congrArg (fun t => y :: t)
        (ih x post (fun z hz => hpre z (List.mem_cons_of_mem y hz)) hr hslot)

/-- C2 (amended) — winner advancement is a no-op unless the format is
SINGLE_ELIMINATION and the completed match has a truthy round number; it
is also a silent no-op when every next-round match has both slots taken;
otherwise it updates exactly the *first next-round match with any empty
slot* (in creation order), writing the winner into that match's home
slot if empty and into its away slot otherwise. -/
theorem C2_advancement_first_open_slot (fmt : FormatType) (table : List MatchRow)
    (m : MatchRow) (w : Nat) :
    (fmt ≠ FormatType.SINGLE_ELIMINATION →
      advance_winner_to_next_round fmt table m w = table) ∧
    (m.round = none → advance_winner_to_next_round fmt table m w = table) ∧
    (∀ r, m.round = some r → r ≠ 0 → fmt = FormatType.SINGLE_ELIMINATION →
      ((∀ x ∈ table, x.round = some (r + 1) → x.home ≠ none ∧ x.away ≠ none) →
        advance_winner_to_next_round fmt table m w = table) ∧
      (∀ pre x post, table = pre ++ x :: post →
        (∀ y ∈ pre, ¬ (y.round = some (r + 1) ∧ (y.home = none ∨ y.away = none))) →
        x.round = some (r + 1) → (x.home = none ∨ x.away = none) →
        advance_winner_to_next_round fmt table m w =
          pre ++ (if x.home = none then { x with home := some w }
                  else { x with away := some w }) :: post)) := by
  refine ⟨?_, ?_, ?_⟩
  · intro hfmt
    cases hm : m.round with
    | none => simp only [advance_winner_to_next_round, hm]
    | some r =>
      simp only [advance_winner_to_next_round, hm]
      by_cases hr : r = 0
      · rw [if_pos hr]
      · rw [if_neg hr, if_pos hfmt]
  · intro hm
    simp only [advance_winner_to_next_round, hm]
  · intro r hm hr hfmt
    have hadv : advance_winner_to_next_round fmt table m w =
        fillNextRound (r + 1) w table := by
      simp only [advance_winner_to_next_round, hm, if_neg hr]
      rw [if_neg (by simp [hfmt])]
    constructor
    · intro hall
      rw [hadv]
      exact fillNextRound_noop (r + 1) w table hall
    · intro pre x post htab hpre hxr hxslot
      rw [hadv, htab]
      exact fillNextRound_fill (r + 1) w pre x post hpre hxr hxslot

/-- Witness for C2 (amended): a 2-round bracket whose single round-2
match has an empty home slot — the round-1 winner `7` lands there. -/
theorem C2_advancement_first_open_slot_witness :
    advance_winner_to_next_round FormatType.SINGLE_ELIMINATION
      [{ round := some 1, home := some 1, away := some 2, group := none,
         status := MatchStatus.COMPLETED, sched := 0 },
       { round := some 2, home := none, away := none, group := none,
         status := MatchStatus.SCHEDULED, sched := 1 }]
      { round := some 1, home := some 1, away := some 2, group := none,
        status := MatchStatus.COMPLETED, sched := 0 } 7 =
      [{ round := some 1, home := some 1, away := some 2, group := none,
         status := MatchStatus.COMPLETED, sched := 0 },
       { round := some 2, home := some 7, away := none, group := none,
         status := MatchStatus.SCHEDULED, sched := 1 }] := by
  have h := (C2_advancement_first_open_slot FormatType.SINGLE_ELIMINATION
    [{ round := some 1, home := some 1, away := some 2, group := none,
       status := MatchStatus.COMPLETED, sched := 0 },
     { round := some 2, home := none, away := none, group := none,
       status := MatchStatus.SCHEDULED, sched := 1 }]
    { round := some 1, home := some 1, away := some 2, group := none,
      status := MatchStatus.COMPLETED, sched := 0 } 7).2.2 1 rfl
    (by decide) rfl
  have h2 := h.2
    [{ round := some 1, home := some 1, away := some 2, group := none,
       status := MatchStatus.COMPLETED, sched := 0 }]
    { round := some 2, home := none, away := none, group := none,
      status := MatchStatus.SCHEDULED, sched := 1 }
    [] rfl (by decide) rfl (Or.inl rfl)
  rw [h2]
  rfl

/-- Counterexample to C2 as stated: next-round table where the first
match (creation order) has home taken and away empty, while the second
match has an empty home slot.  The spec's rule ("first match with an
empty home slot; if none, the first with an empty away slot") would fill
the second match's home slot, but the code fills the first match's away
slot. -/
theorem C2_counterexample :
    advance_winner_to_next_round FormatType.SINGLE_ELIMINATION
      [{ round := some 2, home := some 9, away := none, group := none,
         status := MatchStatus.SCHEDULED, sched := 0 },
       { round := some 2, home := none, away := none, group := none,
         status := MatchStatus.SCHEDULED, sched := 1 }]
      { round := some 1, home := some 1, away := some 2, group := none,
        status := MatchStatus.COMPLETED, sched := 0 } 7 =
      [{ round := some 2, home := some 9, away := some 7, group := none,
         status := MatchStatus.SCHEDULED, sched := 0 },
       { round := some 2, home := none, away := none, group := none,
         status := MatchStatus.SCHEDULED, sched := 1 }] ∧
    spec_advance_winner FormatType.SINGLE_ELIMINATION
      [{ round := some 2, home := some 9, away := none, group := none,
         status := MatchStatus.SCHEDULED, sched := 0 },
       { round := some 2, home := none, away := none, group := none,
         status := MatchStatus.SCHEDULED, sched := 1 }]
      { round := some 1, home := some 1, away := some 2, group := none,
        status := MatchStatus.COMPLETED, sched := 0 } 7 =
      [{ round := some 2, home := some 9, away := none, group := none,
         status := MatchStatus.SCHEDULED, sched := 0 },
       { round := some 2, home := some 7, away := none, group := none,
         status := MatchStatus.SCHEDULED, sched := 1 }] ∧
    advance_winner_to_next_round FormatType.SINGLE_ELIMINATION
      [{ round := some 2, home := some 9, away := none, group := none,
         status := MatchStatus.SCHEDULED, sched := 0 },
       { round := some 2, home := none, away := none, group := none,
         status := MatchStatus.SCHEDULED, sched := 1 }]
      { round := some 1, home := some 1, away := some 2, group := none,
        status := MatchStatus.COMPLETED, sched := 0 } 7 ≠
    spec_advance_winner FormatType.SINGLE_ELIMINATION
      [{ round := some 2, home := some 9, away := none, group := none,
         status := MatchStatus.SCHEDULED, sched := 0 },
       { round := some 2, home := none, away := none, group := none,
         status := MatchStatus.SCHEDULED, sched := 1 }]
      { round := some 1, home := some 1, away := some 2, group := none,
        status := MatchStatus.COMPLETED, sched := 0 } 7 := by
  exact ⟨by decide, by decide, by decide⟩

/-! ## Standings aggregator: `Standings.update_standings` -/

/-- A match row as read by the standings aggregator: the `Match` model
(models.py:1643-1795) carries the status and the two club slots.  It
defines no `home_team_score`/`away_team_score` attribute — scores live
on the related `MatchResult` rows and are reachable only through
`Match.get_scores()`, which `update_standings` does not call. -/
structure StandingsMatchRow where
  status : MatchStatus
  homeTeam : Option Nat
  awayTeam : Option Nat
deriving DecidableEq, Repr

/-- The counter fields of a `Standings` row that `update_standings`
writes. -/
structure StandingsRow where
  points : Int
  played : Int
  wins : Int
  draws : Int
  losses : Int
  goalsFor : Int
  goalsAgainst : Int
deriving DecidableEq, Repr

/-- `Standings.update_standings` (models.py:1911-1967): resets the
counters, filters the competition's COMPLETED matches in which `club`
occupies a side, and iterates over them.  The first loop iteration
evaluates `match.home_team_score > match.away_team_score` (home branch,
models.py:1932) or `match.away_team_score > match.home_team_score`
(away branch, models.py:1945); the `Match` model defines neither
attribute, so the first relevant match raises `AttributeError` (the
left operand's attribute is looked up first).  Only an empty
relevant-match set reaches the final points/played recomputation and
`save()`. -/
def update_standings (fmt : FormatType) (table : List StandingsMatchRow) (club : Nat)
    (s : StandingsRow) : Except String StandingsRow :=
  let s0 : StandingsRow :=
    { s with wins := 0, draws := 0, losses := 0, goalsFor := 0, goalsAgainst := 0, points := 0 }
  let ms := table.filter fun m =>
    m.status = MatchStatus.COMPLETED ∧ (m.homeTeam = some club ∨ m.awayTeam = some club)
  match ms with
  | [] =>
    let pts :=
      if fmt = FormatType.LEAGUE ∨ fmt = FormatType.ROUND_ROBIN then
        s0.wins * 3 + s0.draws * 1
      else
        s0.wins * 3 + s0.draws * 1
    Except.ok { s0 with points := pts, played := s0.wins + s0.draws + s0.losses }
  | m :: _ =>
    if m.homeTeam = some club then
      Except.error "AttributeError: 'Match' object has no attribute 'home_team_score'"
    else
      Except.error "AttributeError: 'Match' object has no attribute 'away_team_score'"

/-- C8 — evaluation at the failing input: one COMPLETED match between
clubs 1 and 2 makes the standings recomputation for club 1 raise
`AttributeError` (the `Match` model has no score attributes), so the
claimed reset-and-rebuild recomputation never runs; with no relevant
COMPLETED match the function does succeed, but only ever returns the
zeroed row. -/
theorem C8_update_standings_attribute_error :
    update_standings FormatType.LEAGUE
        [{ status := MatchStatus.COMPLETED, homeTeam := some 1, awayTeam := some 2 }] 1
        ⟨0, 0, 0, 0, 0, 0, 0⟩ =
      Except.error "AttributeError: 'Match' object has no attribute 'home_team_score'" ∧
    update_standings FormatType.LEAGUE
        [{ status := MatchStatus.COMPLETED, homeTeam := some 1, awayTeam := some 2 }] 2
        ⟨0, 0, 0, 0, 0, 0, 0⟩ =
      Except.error "AttributeError: 'Match' object has no attribute 'away_team_score'" ∧
    update_standings FormatType.LEAGUE [] 1 ⟨5, 4, 3, 2, 1, 7, 7⟩ =
      Except.ok ⟨0, 0, 0, 0, 0, 0, 0⟩ := by
  exact ⟨rfl, rfl, rfl⟩

end Gms
